import Mathlib

/-!
Verification development for the factora per-key request cache and fetch
orchestrator (src/core/api-store-factory.ts, src/utils/get-query-key.ts,
src/utils/subscription-registry.ts, src/utils/defer.ts).

The TypeScript source is shallowly embedded as executable Lean definitions:

* JS object references (promises, AbortControllers, timer ids) and symbols
  (in-flight tokens) are modelled by `Nat` identities; the code only ever
  compares them for identity or tests their presence.
* JS numbers used by the store (timestamps, TTLs, delays) are integers in the
  source (`Date.now()`, millisecond options); they are modelled as `Int`,
  extended with `NaN` (`JsNum`) where the code's truthiness/comparison
  behaviour on `NaN` matters.
* Optional boolean fields of classified errors (`retryable`, `isAbort`) are
  modelled by the `Bool` they truthy-test to, since the source only ever
  tests their truthiness.
* Each Zustand `set` call in the source is an atomic, synchronous state
  transition; it is modelled as a pure function `Store → Store`.  The
  asynchronous interleavings of the event loop are modelled by sequences of
  such atomic steps (`Step`), and reachable states are folds of step lists.
-/

/-- A JS number as used by the store: `NaN` or a finite (integer) value. -/
inductive JsNum where
  | nan
  | fin (n : Int)
deriving DecidableEq, Repr

/-- JS truthiness of a number: `NaN` and `0` are falsy. -/
def JsNum.truthy : JsNum → Bool
  | .nan => false
  | .fin n => n != 0

/-- `a - b < c` for `a c : Int` and a JS number `b`: false when `b` is `NaN`
(any comparison involving `NaN` is false in JS). -/
def jsSubLt (a : Int) (b : JsNum) (c : Int) : Bool :=
  match b with
  | .nan => false
  | .fin t => a - t < c

/-- `a - b > c` for `a c : Int` and a JS number `b`: false when `b` is `NaN`. -/
def jsSubGt (a : Int) (b : JsNum) (c : Int) : Bool :=
  match b with
  | .nan => false
  | .fin t => a - t > c

/-- A JS value stored in an entry's `data` field (`T | null`).  Object values
are identified by a reference id; only truthiness and identity of `data` are
ever inspected by the store. -/
inductive JsVal where
  | vnull
  | vbool (b : Bool)
  | vnum (n : JsNum)
  | vstr (s : String)
  | vobj (id : Nat)
deriving DecidableEq, Repr

/-- JS truthiness of a value. -/
def JsVal.truthy : JsVal → Bool
  | .vnull => false
  | .vbool b => b
  | .vnum n => n.truthy
  | .vstr s => s ≠ ""
  | .vobj _ => true

/-- The classified error produced by the injected error mapper
(`ApiError` in src/types/error.ts).  `retryable` and `isAbort` are optional
booleans in the source, collapsed here to their truthiness; `retryAfter` is
optional and accessed with `??`, so it is an `Option Int`. -/
structure ApiError where
  message : String
  retryable : Bool
  retryAfter : Option Int
  isAbort : Bool
deriving DecidableEq, Repr

/-- Per-key entry state (`QueryState<T>` in api-store-factory.ts). -/
structure QueryState where
  data : JsVal
  error : Option ApiError
  lastFetchTimestamp : Option JsNum
  inFlightPromise : Option Nat
  abortController : Option Nat
  refetchTimerId : Option Nat
  inFlightToken : Option Nat
deriving DecidableEq, Repr

/-- The `defaultState = { data: null, error: null }` object created by
`setQueryState` when the key is absent; all other fields are undefined. -/
def defaultQueryState : QueryState :=
  { data := .vnull, error := none, lastFetchTimestamp := none,
    inFlightPromise := none, abortController := none,
    refetchTimerId := none, inFlightToken := none }

/-- The store's state (`KeyedApiState<T>`): the key → entry map (an insertion
ordered record in JS, modelled as an association list), the entry count and
the store-wide error slot.  `queryCount` is an `Int` because it is a plain JS
number updated by arithmetic in the source. -/
structure Store where
  queries : List (String × QueryState)
  queryCount : Int
  globalError : Option ApiError
deriving DecidableEq, Repr

/-- The initial store state (`queries: {}, queryCount: 0, globalError: null`). -/
def initialStore : Store := { queries := [], queryCount := 0, globalError := none }

/-- Property access `s.queries[key]`. -/
def lookupEntry (key : String) : List (String × QueryState) → Option QueryState
  | [] => none
  | (k, v) :: rest => if k = key then some v else lookupEntry key rest

def Store.lookup (st : Store) (key : String) : Option QueryState :=
  lookupEntry key st.queries

/-- `{ ...s.queries, [key]: q }`: replace the binding in place, or append a
new binding at the end. -/
def insertEntry (key : String) (q : QueryState) :
    List (String × QueryState) → List (String × QueryState)
  | [] => [(key, q)]
  | (k, v) :: rest =>
      if k = key then (key, q) :: rest else (k, v) :: insertEntry key q rest

/-- `delete newQueries[key]`. -/
def eraseEntry (key : String) : List (String × QueryState) → List (String × QueryState)
  | [] => []
  | (k, v) :: rest => if k = key then rest else (k, v) :: eraseEntry key rest

/-- Result of a query-state updater function.  The source distinguishes, by
JS reference identity, an updater that returns its argument unchanged
(`updated === defaultState`, and zustand's `shallow` via `Object.is`) from one
that builds a new object; `same` models "returned the argument itself". -/
inductive UpdResult where
  | same
  | changed (q : QueryState)
deriving DecidableEq, Repr

/-- zustand's `shallow` on two entry objects: per-field `Object.is`; with the
identity-based field model this is structural equality of the records. -/
def shallowEq (a b : QueryState) : Bool := a = b

/-- `setQueryState` (api-store-factory.ts:310-331): functional updater that
maintains `queryCount`, refuses to resurrect a missing key when the updater
returned the default object unchanged, and skips the write when the updated
entry is shallow-equal to the current one. -/
def setQueryState (st : Store) (key : String) (upd : QueryState → UpdResult) : Store :=
  match st.lookup key with
  | none =>
      match upd defaultQueryState with
      | .same => st
      | .changed q =>
          { st with queries := insertEntry key q st.queries,
                    queryCount := st.queryCount + 1 }
  | some cur =>
      match upd cur with
      | .same => st
      | .changed q =>
          if shallowEq cur q then st
          else { st with queries := insertEntry key q st.queries }

/-- The success write of `executeFetchCycle` (api-store-factory.ts:232-245):
gated on the in-flight token; on a match it stores the data, clears the error,
stamps `lastFetchTimestamp = now` and installs the freshly scheduled poll
timer; on a mismatch it returns the state unchanged (the fresh timer is
cancelled, an external effect). -/
def successUpdater (tok : Nat) (d : JsVal) (now : Int) (newTimer : Option Nat)
    (s : QueryState) : UpdResult :=
  if s.inFlightToken ≠ some tok then .same
  else .changed { s with data := d, error := none,
                         lastFetchTimestamp := some (.fin now),
                         refetchTimerId := newTimer }

/-- The error write of `executeFetchCycle` (api-store-factory.ts:253-256):
token gated; writes the classified error. -/
def errorUpdater (tok : Nat) (e : ApiError) (s : QueryState) : UpdResult :=
  if s.inFlightToken ≠ some tok then .same
  else .changed { s with error := some e }

/-- The atomic slot claim of `triggerFetch` (api-store-factory.ts:407-414):
stores the deferred promise, the fresh token and the fresh AbortController,
clears the error and the poll timer id. -/
def slotClaimUpdater (pid tok cid : Nat) (s : QueryState) : UpdResult :=
  .changed { s with error := none, inFlightPromise := some pid,
                    inFlightToken := some tok, abortController := some cid,
                    refetchTimerId := none }

/-- The cache-hit poll-timer reschedule of `triggerFetch`
(api-store-factory.ts:374-383). -/
def pollRescheduleUpdater (tid : Nat) (s : QueryState) : UpdResult :=
  .changed { s with refetchTimerId := some tid }

/-- The token-gated cleanup in `triggerFetch`'s `.finally` handler
(api-store-factory.ts:424-436): only when the entry still exists and still
carries this cycle's token are the in-flight fields cleared. -/
def finallyCleanup (st : Store) (key : String) (tok : Nat) : Store :=
  match st.lookup key with
  | some cur =>
      if cur.inFlightToken = some tok then
        setQueryState st key (fun s =>
          .changed { s with inFlightPromise := none, inFlightToken := none,
                            abortController := none })
      else st
  | none => st

/-- Store configuration after defaulting (api-store-factory.ts:156-171). -/
structure StoreConfig where
  cacheTTL : Int
  retryDelay : Int
  retryAttemptsRaw : Int
  refetchIntervalMs : Int
  gcGracePeriod : Int
deriving DecidableEq, Repr

/-- `Math.max(1, Math.floor(Number(rawRetryAttempts)))`. -/
def StoreConfig.retryAttempts (c : StoreConfig) : Nat :=
  max 1 c.retryAttemptsRaw.toNat

/-- The cache-freshness test of `triggerFetch` (api-store-factory.ts:364-371):
`!forceFetch && queryState?.data && !queryState.error &&
queryState.lastFetchTimestamp && cacheTTL > 0 &&
now - queryState.lastFetchTimestamp < cacheTTL`.
Note the truthiness tests on `data` and `lastFetchTimestamp`. -/
def cacheFresh (c : StoreConfig) (q : Option QueryState) (now : Int) : Bool :=
  match q with
  | none => false
  | some q =>
      q.data.truthy && q.error.isNone &&
      (match q.lastFetchTimestamp with
       | none => false
       | some ts => ts.truthy && decide (0 < c.cacheTTL) && jsSubLt now ts c.cacheTTL)

/-- What `triggerFetch` returned: the existing in-flight promise (dedupe), an
already-resolved promise (cache hit), or the freshly created deferred. -/
inductive TriggerReturn where
  | dedupe (promiseId : Nat)
  | cacheHit
  | newFetch (promiseId : Nat)
deriving DecidableEq, Repr

/-- Outcome of the synchronous phase of one `triggerFetch` call. -/
structure TriggerResult where
  store : Store
  ret : TriggerReturn
  /-- whether `executeFetchCycle` was launched (a fetcher invocation will run) -/
  cycleStarted : Bool
  /-- whether step 1 aborted an existing controller (external effect) -/
  abortedExisting : Bool
deriving Repr

/-- The synchronous phase of `triggerFetch` (api-store-factory.ts:347-449):
everything up to and including the atomic slot claim and the launch of
`executeFetchCycle` runs in one synchronous turn; `pid`, `tok`, `cid`, `tid`
are the identities of the freshly created deferred promise, token symbol,
AbortController and (potential) poll timer. -/
def triggerFetchSync (c : StoreConfig) (st : Store) (key : String)
    (force : Bool) (now : Int) (pid tok cid tid : Nat) : TriggerResult :=
  let q0 := st.lookup key
  let aborted := force && (q0.bind QueryState.abortController).isSome
  if h : ¬ aborted ∧ (q0.bind QueryState.inFlightPromise).isSome then
    -- Deduplicate: return the in-flight promise, no state change, no work.
    { store := st,
      ret := .dedupe ((q0.bind QueryState.inFlightPromise).get h.2),
      cycleStarted := false, abortedExisting := false }
  else
    -- Re-read after the potential abort (the abort is an external signal to
    -- the old cycle; it does not change the store synchronously).
    let q1 := st.lookup key
    if !force && cacheFresh c q1 now then
      let st2 :=
        if 0 < c.refetchIntervalMs then
          setQueryState st key (pollRescheduleUpdater tid)
        else st
      { store := st2, ret := .cacheHit, cycleStarted := false,
        abortedExisting := aborted }
    else
      let st2 := setQueryState st key (slotClaimUpdater pid tok cid)
      { store := st2, ret := .newFetch pid, cycleStarted := true,
        abortedExisting := aborted }

/-- Staleness test of `refetchStaleQueries` (api-store-factory.ts:461-470):
skip entries with an in-flight promise, a falsy timestamp or an error; refetch
when `now - lastFetchTimestamp > cacheTTL`. -/
def staleForRefetch (c : StoreConfig) (q : QueryState) (now : Int) : Bool :=
  !(q.inFlightPromise.isSome ||
    !(match q.lastFetchTimestamp with | none => false | some ts => ts.truthy) ||
    q.error.isSome) &&
  (match q.lastFetchTimestamp with
   | none => false
   | some ts => jsSubGt now ts c.cacheTTL)

/-- `refetchStaleQueries` (api-store-factory.ts:457-472): no-op for
`cacheTTL ≤ 0`; otherwise force-triggers every stale entry of the snapshot.
`ids` supplies the fresh identities each nested `triggerFetch` would mint. -/
def refetchStaleQueries (c : StoreConfig) (st : Store) (now : Int)
    (ids : String → Nat × Nat × Nat × Nat) : Store :=
  if c.cacheTTL ≤ 0 then st
  else
    st.queries.foldl
      (fun acc kv =>
        if staleForRefetch c kv.2 now then
          (triggerFetchSync c acc kv.1 true now (ids kv.1).1 (ids kv.1).2.1
            (ids kv.1).2.2.1 (ids kv.1).2.2.2).store
        else acc)
      st

/-- `clearQueryState` (api-store-factory.ts:479-515): resource cleanup is
external and never blocks removal; the entry is removed and the count
decremented in one atomic step, a missing key is a no-op. -/
def clearQueryState (st : Store) (key : String) : Store :=
  match st.lookup key with
  | none => st
  | some _ =>
      { st with queries := eraseEntry key st.queries,
                queryCount := st.queryCount - 1 }

/-- `clearAllQueryStates` (api-store-factory.ts:521-529). -/
def clearAllQueryStates (_st : Store) : Store := initialStore

/-- Staleness test of the GC sweep (api-store-factory.ts:571-573):
`candidate.lastFetchTimestamp && sweptAt - candidate.lastFetchTimestamp >
gcGracePeriod`; an absent, `NaN` or `0` timestamp is falsy, and a comparison
against `NaN` is false, so such entries are never stale. -/
def gcIsStale (c : StoreConfig) (q : QueryState) (sweptAt : Int) : Bool :=
  match q.lastFetchTimestamp with
  | none => false
  | some ts => ts.truthy && jsSubGt sweptAt ts c.gcGracePeriod

/-- The skip condition of the GC sweep (api-store-factory.ts:576): an entry is
kept when it has subscribers, an in-flight promise, an active poll timer, or
is not stale. -/
def gcSkips (c : StoreConfig) (hasSubs : Bool) (q : QueryState) (sweptAt : Int) : Bool :=
  hasSubs || q.inFlightPromise.isSome || q.refetchTimerId.isSome ||
    !(gcIsStale c q sweptAt)

/-- `clearStaleQueries` (api-store-factory.ts:552-616): inside one atomic
`set`, delete every non-skipped entry and decrement the count by the number
deleted; resource cleanup happens afterwards, outside the atomic step.
`hasSubs` is the external liveness tracker
(`subscriptionManager.hasSubscribers`, subscription-registry.ts:48-50). -/
def clearStaleQueries (c : StoreConfig) (st : Store)
    (hasSubs : String → Bool) (sweptAt : Int) : Store :=
  let newQueries := st.queries.filter (fun kv => gcSkips c (hasSubs kv.1) kv.2 sweptAt)
  if newQueries.length = st.queries.length then st
  else
    { st with queries := newQueries,
              queryCount := st.queryCount -
                ((st.queries.length : Int) - (newQueries.length : Int)) }

/-- `setGlobalErrorState` (api-store-factory.ts:618-625); an empty message is
falsy and replaced by the default text. -/
def setGlobalErrorState (st : Store) (msg : String) : Store :=
  let m := if msg = "" then "An unknown store error occurred." else msg
  let e : ApiError :=
    { message := m, retryable := false, retryAfter := none, isAbort := false }
  { st with globalError := some e }

/-- One atomic store mutation, as fired by the store's operations and by the
asynchronous completion handlers of a fetch cycle.  Any event-loop
interleaving of the source is a sequence of these steps. -/
inductive Step where
  | trigger (key : String) (force : Bool) (now : Int) (pid tok cid tid : Nat)
  | successWrite (key : String) (tok : Nat) (d : JsVal) (now : Int) (newTimer : Option Nat)
  | errorWrite (key : String) (tok : Nat) (e : ApiError)
  | cycleFinally (key : String) (tok : Nat)
  | refetchStale (now : Int) (ids : String → Nat × Nat × Nat × Nat)
  | clearQuery (key : String)
  | clearAll
  | gcSweep (hasSubs : String → Bool) (sweptAt : Int)
  | setGlobalError (msg : String)

/-- Apply one atomic step. -/
def applyStep (c : StoreConfig) (st : Store) : Step → Store
  | .trigger key force now pid tok cid tid =>
      (triggerFetchSync c st key force now pid tok cid tid).store
  | .successWrite key tok d now newTimer =>
      setQueryState st key (successUpdater tok d now newTimer)
  | .errorWrite key tok e => setQueryState st key (errorUpdater tok e)
  | .cycleFinally key tok => finallyCleanup st key tok
  | .refetchStale now ids => refetchStaleQueries c st now ids
  | .clearQuery key => clearQueryState st key
  | .clearAll => clearAllQueryStates st
  | .gcSweep hasSubs sweptAt => clearStaleQueries c st hasSubs sweptAt
  | .setGlobalError msg => setGlobalErrorState st msg

/-- Run a sequence of atomic steps. -/
def runSteps (c : StoreConfig) (st : Store) (steps : List Step) : Store :=
  steps.foldl (applyStep c) st

/-! ## The retry / fetch-cycle engine (`executeFetchCycle`)

The cycle's interaction with its environment — whether the controller's
signal is aborted at each poll point and what each `runFetchAttempt`
resolves or rejects with — is an oracle (`CycleEnv`).  A rejection of
`runFetchAttempt` carries whatever value the injected error mapper returned,
or whatever the mapper itself threw; the cycle treats that value as an
`ApiError` and only reads `isAbort`, `retryable` and `retryAfter` from it, so
a mapper throw is a value whose fields all read as absent. -/

/-- Environment oracle for one fetch cycle, indexed by attempt number. -/
structure CycleEnv where
  /-- `controller.signal.aborted` at the top of the loop for this attempt -/
  abortedBefore : Nat → Bool
  /-- result of `runFetchAttempt` for this attempt -/
  attemptResult : Nat → Except ApiError JsVal
  /-- whether the abort listener fired during this attempt's retry delay -/
  abortedDuringWait : Nat → Bool

/-- Observable events of one fetch cycle, in program order. -/
inductive CycleEvent where
  | attemptRun (n : Nat)
  | succeeded (n : Nat) (d : JsVal)
  | errorWritten (n : Nat) (e : ApiError)
  | abortedEarly (n : Nat)
  | waited (n : Nat) (delay : Int)
deriving DecidableEq, Repr

/-- The retry delay (api-store-factory.ts:270-272): the server-provided
`retryAfter` takes precedence over exponential backoff
`retryDelay * 2 ^ (attempt - 1)`. -/
def computeRetryDelay (c : StoreConfig) (e : ApiError) (attempt : Nat) : Int :=
  e.retryAfter.getD (c.retryDelay * 2 ^ (attempt - 1))

/-- The attempt loop of `executeFetchCycle` (api-store-factory.ts:202-295),
unrolled from attempt number `attempt` with `fuel = retryAttempts - attempt
+ 1` remaining attempts (so `fuel = 1` exactly when this is the final
permitted attempt, mirroring `attempt >= retryAttempts`).  The function is
total: every branch, including an abort, a terminal error and an aborted
delay, returns — the cycle never escapes with an exception. -/
def cycleFrom (c : StoreConfig) (env : CycleEnv) : Nat → Nat → List CycleEvent
  | _, 0 => []
  | attempt, fuel + 1 =>
    if env.abortedBefore attempt then [.abortedEarly attempt]
    else
      match env.attemptResult attempt with
      | .ok d => [.attemptRun attempt, .succeeded attempt d]
      | .error e =>
          [.attemptRun attempt] ++
          (if e.isAbort then [] else [.errorWritten attempt e]) ++
          (if e.isAbort || fuel == 0 || !e.retryable then []
           else
             .waited attempt (computeRetryDelay c e attempt) ::
             (if env.abortedDuringWait attempt then []
              else cycleFrom c env (attempt + 1) fuel))

/-- One full fetch cycle, starting at attempt 1. -/
def cycleTrace (c : StoreConfig) (env : CycleEnv) : List CycleEvent :=
  cycleFrom c env 1 c.retryAttempts

/-! ## Settling the deferred promise

`triggerFetch` launches `executeFetchCycle(key, controller, token)
.finally(onFinally).catch(onCatch)` (api-store-factory.ts:419-448).  The
`finally` callback runs whether the cycle's promise fulfilled or rejected; it
performs the token-gated cleanup and then calls `deferredResolve()`
unconditionally.  A rejection then propagates past `finally` into the
`catch`, which only logs.  The deferred promise itself can only ever be
resolved: its `reject` capability is never invoked anywhere in the source. -/

/-- Settlement state of the deferred promise returned by `triggerFetch`. -/
inductive DeferState where
  | pending
  | resolvedD
  | rejectedD
deriving DecidableEq, Repr

/-- `deferredResolve()`: a promise settles at most once. -/
def resolveDefer : DeferState → DeferState
  | .pending => .resolvedD
  | d => d

/-- How the `executeFetchCycle(...)` promise settled.  `threw` covers an
unexpected exception in the cycle's own bookkeeping (e.g. `parseQueryKey`
throwing on a malformed key); everything inside the attempt loop is caught
by the loop itself (`cycleFrom` is total). -/
inductive CycleOutcome where
  | completed
  | threw (msg : String)
deriving DecidableEq, Repr

/-- State threaded through the completion chain. -/
structure SettleState where
  store : Store
  deferred : DeferState
  unexpectedLogged : Bool
deriving Repr

/-- The `.finally` callback (api-store-factory.ts:420-441): token-gated
cleanup of the in-flight fields, then resolve the deferred unconditionally. -/
def finallyBody (key : String) (tok : Nat) (s : SettleState) : SettleState :=
  { s with store := finallyCleanup s.store key tok,
           deferred := resolveDefer s.deferred }

/-- The whole completion chain `executeFetchCycle(...).finally(...).catch(...)`:
the `finally` callback runs for fulfilment and rejection alike; a rejection
then reaches the `catch`, which logs and swallows it. -/
def settleTrigger (key : String) (tok : Nat) (oc : CycleOutcome)
    (s : SettleState) : SettleState :=
  let s1 := finallyBody key tok s
  match oc with
  | .completed => s1
  | .threw _ => { s1 with unexpectedLogged := true }

/-! ## The store-count invariant (claim C6) -/

/-- queryCount always equals the number of entries in the map. -/
def countInv (st : Store) : Prop :=
  st.queryCount = (st.queries.length : Int)

/-! ## Token-gated completion steps (claims C1 and C3) -/

/-- The entry's current in-flight token for a key (`undefined` when the key
is absent or the entry has no token). -/
def tokenOf (st : Store) (key : String) : Option Nat :=
  (st.lookup key).bind QueryState.inFlightToken

/-- Steps a fetch cycle with token `tok` for `key` can perform when it
completes: its success write, its error write, and the `.finally` cleanup. -/
def isCycleCompletion (key : String) (tok : Nat) : Step → Bool
  | .successWrite k t _ _ _ => k == key && t == tok
  | .errorWrite k t _ => k == key && t == tok
  | .cycleFinally k t => k == key && t == tok
  | _ => false

/-- Concrete check of C1: an entry currently owned by token 7; the completion
steps of a stale cycle with token 5 (success write, error write, finally
cleanup) leave the store byte-for-byte unchanged. -/
def qStale : QueryState :=
  { data := .vstr "fresh", error := none, lastFetchTimestamp := some (.fin 90),
    inFlightPromise := some 3, abortController := some 4,
    refetchTimerId := none, inFlightToken := some 7 }

def stStale : Store := { queries := [("k", qStale)], queryCount := 1, globalError := none }

def cfgW : StoreConfig :=
  { cacheTTL := 300000, retryDelay := 1000, retryAttemptsRaw := 3,
    refetchIntervalMs := 0, gcGracePeriod := 600000 }

def errW : ApiError :=
  { message := "boom", retryable := true, retryAfter := none, isAbort := false }

/-- The entry written by the slot claim when the key had no entry yet
(`slotClaimUpdater` applied to the default object). -/
def claimedEntry (pid tok cid : Nat) : QueryState :=
  { data := .vnull, error := none, lastFetchTimestamp := none,
    inFlightPromise := some pid, abortController := some cid,
    refetchTimerId := none, inFlightToken := some tok }

/-- `N` consecutive non-forced `triggerFetch` calls for one key inside one
synchronous turn (no microtask boundary, so no completion handler runs in
between); the second component counts how many fetch cycles were started. -/
def triggerNAux (c : StoreConfig) (key : String) (now : Int)
    (ids : Nat → Nat × Nat × Nat × Nat) : Nat → Store → Store × Nat
  | 0, st => (st, 0)
  | n + 1, st =>
      let r := triggerFetchSync c st key false now (ids n).1 (ids n).2.1
        (ids n).2.2.1 (ids n).2.2.2
      let rest := triggerNAux c key now ids n r.store
      (rest.1, (if r.cycleStarted then 1 else 0) + rest.2)

def idsW : Nat → Nat × Nat × Nat × Nat := fun n => (4 * n + 1, 4 * n + 2, 4 * n + 3, 4 * n + 4)

def qFresh : QueryState :=
  { data := .vstr "v", error := none, lastFetchTimestamp := some (.fin 100),
    inFlightPromise := none, abortController := none,
    refetchTimerId := none, inFlightToken := none }

def stFresh : Store := { queries := [("k", qFresh)], queryCount := 1, globalError := none }

def qZero : QueryState :=
  { data := .vnum (.fin 0), error := none, lastFetchTimestamp := some (.fin 100),
    inFlightPromise := none, abortController := none,
    refetchTimerId := none, inFlightToken := none }

def stZero : Store := { queries := [("k", qZero)], queryCount := 1, globalError := none }

def qStaleOld : QueryState :=
  { data := .vstr "old", error := none, lastFetchTimestamp := some (.fin 10),
    inFlightPromise := some 9, abortController := some 8,
    refetchTimerId := none, inFlightToken := some 2 }

def stGc : Store := { queries := [("g", qStaleOld)], queryCount := 1, globalError := none }

def errRetry : ApiError :=
  { message := "503", retryable := true, retryAfter := some 500, isAbort := false }

def envW : CycleEnv :=
  { abortedBefore := fun _ => false,
    attemptResult := fun _ => .error errRetry,
    abortedDuringWait := fun _ => true }

/-! ## The key codec (claim C9): `getQueryKey` / `parseQueryKey`
(src/utils/get-query-key.ts)

The JSON text layer is embedded at the level of the JSON value it denotes:
`JSON.stringify`/`JSON.parse` of the runtime are a faithful round trip
between a JSON value and its text, so the codec is modelled as functions on
JSON values (`JVal`).  Everything the repository's code adds on top is
modelled in full: the non-empty-endpoint check, the `WeakSet`-based
reference guard of the replacer (objects are carried with reference
identities, `Nat` ids, and the guard rejects any repeated id — it never
removes ids after visiting, so shared non-circular references are rejected
too), top-level key sorting, `Date.prototype.toISOString` serialization at
the character level, the reviver's ISO-8601 regex as a character-level
matcher, `new Date(string)` on regex-matching strings (range validation,
fraction-digit scaling, `24:00` normalization and UTC offset conversion),
and the parsed-structure type guard. -/

/-- ASCII digit test, `\d` of the regex. -/
def isDigitChar (c : Char) : Bool := 48 ≤ c.toNat && c.toNat ≤ 57

def digitChar (d : Nat) : Char := Char.ofNat (48 + d)

def digitVal (c : Char) : Nat := c.toNat - 48

/-- `k`-digit zero-padded decimal digits of `n` (most significant first),
as `String.prototype.padStart`-style formatting used by `toISOString`. -/
def padChars : Nat → Nat → List Char
  | 0, _ => []
  | k + 1, n => digitChar (n / 10 ^ k) :: padChars k (n % 10 ^ k)

/-- Consume exactly `k` digits, accumulating their value. -/
def takeDigits : Nat → Nat → List Char → Option (Nat × List Char)
  | 0, acc, cs => some (acc, cs)
  | _ + 1, _, [] => none
  | k + 1, acc, c :: cs =>
      if isDigitChar c then takeDigits k (acc * 10 + digitVal c) cs else none

/-- Consume up to `fuel` digits greedily (the regex `\d{1,3}` for the
fraction; greedy matching is equivalent to the regex with backtracking here
because a leftover digit also fails every backtracked continuation).
Returns (value, digits consumed, rest). -/
def takeDigitsGreedy : Nat → Nat → Nat → List Char → Nat × Nat × List Char
  | 0, acc, cnt, cs => (acc, cnt, cs)
  | fuel + 1, acc, cnt, cs =>
      match cs with
      | [] => (acc, cnt, [])
      | c :: rest =>
          if isDigitChar c then
            takeDigitsGreedy fuel (acc * 10 + digitVal c) (cnt + 1) rest
          else (acc, cnt, c :: rest)

def expectChar (c : Char) : List Char → Option (List Char)
  | [] => none
  | x :: xs => if x = c then some xs else none

/-- A JS `Date`, by its UTC calendar components (a valid date only; an
Invalid Date never round-trips — its `toJSON` is `null`). -/
structure DateC where
  year : Nat
  month : Nat
  day : Nat
  hour : Nat
  minute : Nat
  second : Nat
  ms : Nat
deriving DecidableEq, Repr

def isLeapYear (y : Nat) : Bool := (y % 4 = 0 && y % 100 ≠ 0) || y % 400 = 0

def daysInMonth (y m : Nat) : Nat :=
  if m = 2 then (if isLeapYear y then 29 else 28)
  else if m = 4 ∨ m = 6 ∨ m = 9 ∨ m = 11 then 30
  else 31

/-- The dates whose `toISOString` uses the plain 4-digit-year format matched
by the reviver's regex (years above 9999 serialize in the expanded
`±YYYYYY` form, which the regex deliberately does not match). -/
def validDate (d : DateC) : Bool :=
  d.year ≤ 9999 && 1 ≤ d.month && d.month ≤ 12 && 1 ≤ d.day &&
    d.day ≤ daysInMonth d.year d.month && d.hour ≤ 23 && d.minute ≤ 59 &&
    d.second ≤ 59 && d.ms ≤ 999

/-- `Date.prototype.toISOString`: `YYYY-MM-DDTHH:mm:ss.sssZ` (the append
tree is written right-nested, mirroring left-to-right consumption). -/
def isoChars (d : DateC) : List Char :=
  padChars 4 d.year ++ ('-' :: (padChars 2 d.month ++ ('-' :: (padChars 2 d.day ++
    ('T' :: (padChars 2 d.hour ++ (':' :: (padChars 2 d.minute ++
    (':' :: (padChars 2 d.second ++ ('.' :: (padChars 3 d.ms ++ ['Z']))))))))))))

def toISOString (d : DateC) : String := String.mk (isoChars d)

/-- Timezone designator of the ISO format: `Z` or `±HH:mm`. -/
inductive IsoTz where
  | z
  | plus (h m : Nat)
  | minus (h m : Nat)
deriving DecidableEq, Repr

/-- What the reviver's regex shape-matches: the six date-time fields, an
optional fraction (value and digit count) and the timezone. -/
structure RawIso where
  year : Nat
  month : Nat
  day : Nat
  hour : Nat
  minute : Nat
  second : Nat
  frac : Option (Nat × Nat)
  tz : IsoTz
deriving DecidableEq, Repr

/-- `\d{4}-\d{2}-\d{2}` of the regex. -/
def parseDatePart (cs : List Char) : Option (Nat × Nat × Nat × List Char) := do
  let (y, cs) ← takeDigits 4 0 cs
  let cs ← expectChar '-' cs
  let (mo, cs) ← takeDigits 2 0 cs
  let cs ← expectChar '-' cs
  let (dy, cs) ← takeDigits 2 0 cs
  some (y, mo, dy, cs)

/-- `T\d{2}:\d{2}:\d{2}` of the regex. -/
def parseTimePart (cs : List Char) : Option (Nat × Nat × Nat × List Char) := do
  let cs ← expectChar 'T' cs
  let (h, cs) ← takeDigits 2 0 cs
  let cs ← expectChar ':' cs
  let (mi, cs) ← takeDigits 2 0 cs
  let cs ← expectChar ':' cs
  let (se, cs) ← takeDigits 2 0 cs
  some (h, mi, se, cs)

/-- `(?:\.\d{1,3})?` of the regex. -/
def parseFracPart : List Char → Option (Option (Nat × Nat) × List Char)
  | '.' :: rest =>
      match takeDigitsGreedy 3 0 0 rest with
      | (v, cnt, rest2) => if cnt = 0 then none else some (some (v, cnt), rest2)
  | other => some (none, other)

/-- `(?:Z|[+-]\d{2}:\d{2})$` of the regex (the anchor: nothing may follow). -/
def parseTzPart : List Char → Option IsoTz
  | ['Z'] => some .z
  | '+' :: rest => do
      let (oh, rest) ← takeDigits 2 0 rest
      let rest ← expectChar ':' rest
      let (om, rest) ← takeDigits 2 0 rest
      match rest with
      | [] => some (.plus oh om)
      | _ => none
  | '-' :: rest => do
      let (oh, rest) ← takeDigits 2 0 rest
      let rest ← expectChar ':' rest
      let (om, rest) ← takeDigits 2 0 rest
      match rest with
      | [] => some (.minus oh om)
      | _ => none
  | _ => none

/-- The reviver's regex
`^\d{4}-\d{2}-\d{2}T\d{2}:\d{2}:\d{2}(?:\.\d{1,3})?(?:Z|[+-]\d{2}:\d{2})$`
as a character-level parser; `none` is "no match". -/
def parseIsoShape (cs : List Char) : Option RawIso := do
  let (y, mo, dy, cs) ← parseDatePart cs
  let (h, mi, se, cs) ← parseTimePart cs
  let (frac, cs) ← parseFracPart cs
  let tz ← parseTzPart cs
  some { year := y, month := mo, day := dy, hour := h, minute := mi,
         second := se, frac := frac, tz := tz }

/-- The following day, `none` if the year would leave 0..9999. -/
def nextDay (d : DateC) : Option DateC :=
  if d.day < daysInMonth d.year d.month then some { d with day := d.day + 1 }
  else if d.month < 12 then some { d with month := d.month + 1, day := 1 }
  else if d.year < 9999 then some { d with year := d.year + 1, month := 1, day := 1 }
  else none

/-- The previous day, `none` if the year would leave 0..9999. -/
def prevDay (d : DateC) : Option DateC :=
  if 1 < d.day then some { d with day := d.day - 1 }
  else if 1 < d.month then
    some { d with month := d.month - 1, day := daysInMonth d.year (d.month - 1) }
  else if 0 < d.year then some { d with year := d.year - 1, month := 12, day := 31 }
  else none

/-- Shift a date back by `k < 1440` minutes (UTC conversion of a `+HH:mm`
offset). -/
def subMinutes (d : DateC) (k : Nat) : Option DateC :=
  let tot := d.hour * 60 + d.minute
  if k ≤ tot then
    some { d with hour := (tot - k) / 60, minute := (tot - k) % 60 }
  else
    (prevDay d).map (fun d2 =>
      { d2 with hour := (tot + 1440 - k) / 60, minute := (tot + 1440 - k) % 60 })

/-- Shift a date forward by `k < 1440` minutes (UTC conversion of a `-HH:mm`
offset). -/
def addMinutes (d : DateC) (k : Nat) : Option DateC :=
  let tot := d.hour * 60 + d.minute + k
  if tot < 1440 then some { d with hour := tot / 60, minute := tot % 60 }
  else
    (nextDay d).map (fun d2 =>
      { d2 with hour := (tot - 1440) / 60, minute := (tot - 1440) % 60 })

/-- Convert a date given in an explicit offset to UTC (offsets outside
`±23:59` give an Invalid Date). -/
def applyTz (d : DateC) : IsoTz → Option DateC
  | .z => some d
  | .plus oh om => if oh ≤ 23 ∧ om ≤ 59 then subMinutes d (oh * 60 + om) else none
  | .minus oh om => if oh ≤ 23 ∧ om ≤ 59 then addMinutes d (oh * 60 + om) else none

/-- A JS parameter value as passed to `getQueryKey`: JSON-representable
values plus `Date` objects.  Arrays and objects carry a reference identity
(`id`); the replacer's `WeakSet` guard compares objects by reference, so two
occurrences of the same `id` model two references to one object. -/
inductive PVal where
  | vnull
  | vbool (b : Bool)
  | vnum (n : Int)
  | vstr (s : String)
  | vdate (d : DateC)
  | varr (id : Nat) (items : List PVal)
  | vobj (id : Nat) (fields : List (String × PVal))

/-- A JSON value, standing for the JSON text it denotes
(`JSON.stringify`/`JSON.parse` are a faithful round trip between the two). -/
inductive JVal where
  | jnull
  | jbool (b : Bool)
  | jnum (n : Int)
  | jstr (s : String)
  | jarr (items : List JVal)
  | jobj (fields : List (String × JVal))

/-- `new Date(string)` on a string already matching the regex shape: range
validation (out-of-range fields give an Invalid Date), scaling of a 1-3
digit fraction to milliseconds, the special `24:00:00.000` end-of-day form,
and conversion of an explicit offset to UTC. -/
def rawToDate (r : RawIso) : Option DateC :=
  let ms := match r.frac with
    | none => 0
    | some (v, cnt) => v * 10 ^ (3 - cnt)
  if ¬ (1 ≤ r.month ∧ r.month ≤ 12) then none
  else if ¬ (1 ≤ r.day ∧ r.day ≤ daysInMonth r.year r.month) then none
  else if ¬ (r.minute ≤ 59 ∧ r.second ≤ 59) then none
  else if r.hour = 24 then
    if r.minute = 0 ∧ r.second = 0 ∧ ms = 0 then
      match nextDay { year := r.year, month := r.month, day := r.day,
                      hour := 0, minute := 0, second := 0, ms := 0 } with
      | none => none
      | some base => applyTz base r.tz
    else none
  else if r.hour ≤ 23 then
    applyTz { year := r.year, month := r.month, day := r.day, hour := r.hour,
              minute := r.minute, second := r.second, ms := ms } r.tz
  else none

/-- The string reviver of `parseQueryKey` (get-query-key.ts:103-113): a
string matching the regex whose `new Date` is valid becomes that date;
every other string stays a string. -/
def reviveJStr (s : String) : PVal :=
  match parseIsoShape s.toList with
  | none => .vstr s
  | some raw =>
      match rawToDate raw with
      | some d => .vdate d
      | none => .vstr s

/-! `JSON.stringify` value conversion: `Date` values become their
`toJSON`/`toISOString` strings (before the replacer ever sees them);
reference ids are not part of the text. -/

mutual
def serializeV : PVal → JVal
  | .vnull => .jnull
  | .vbool b => .jbool b
  | .vnum n => .jnum n
  | .vstr s => .jstr s
  | .vdate d => .jstr (toISOString d)
  | .varr _ xs => .jarr (serializeL xs)
  | .vobj _ fs => .jobj (serializeF fs)
def serializeL : List PVal → List JVal
  | [] => []
  | x :: xs => serializeV x :: serializeL xs
def serializeF : List (String × PVal) → List (String × JVal)
  | [] => []
  | (k, v) :: fs => (k, serializeV v) :: serializeF fs
end

/-! `JSON.parse` with the date reviver, applied bottom-up; freshly parsed
objects get reference id 0 (ids play no further role after parsing). -/

mutual
def reviveV : JVal → PVal
  | .jnull => .vnull
  | .jbool b => .vbool b
  | .jnum n => .vnum n
  | .jstr s => reviveJStr s
  | .jarr xs => .varr 0 (reviveL xs)
  | .jobj fs => .vobj 0 (reviveF fs)
def reviveL : List JVal → List PVal
  | [] => []
  | x :: xs => reviveV x :: reviveL xs
def reviveF : List (String × JVal) → List (String × PVal)
  | [] => []
  | (k, v) :: fs => (k, reviveV v) :: reviveF fs
end

/-! Forgetting reference identities (deep equality of JS values ignores
which object a value lives in). -/

mutual
def stripIdsV : PVal → PVal
  | .vnull => .vnull
  | .vbool b => .vbool b
  | .vnum n => .vnum n
  | .vstr s => .vstr s
  | .vdate d => .vdate d
  | .varr _ xs => .varr 0 (stripIdsL xs)
  | .vobj _ fs => .vobj 0 (stripIdsF fs)
def stripIdsL : List PVal → List PVal
  | [] => []
  | x :: xs => stripIdsV x :: stripIdsL xs
def stripIdsF : List (String × PVal) → List (String × PVal)
  | [] => []
  | (k, v) :: fs => (k, stripIdsV v) :: stripIdsF fs
end

/-! The claim's "modulo revival" map: a `Date` value comes back as the same
date; a string in the exact ISO format whose `new Date` is valid comes back
as that date; everything else is unchanged, recursively. -/

mutual
def reviveDeepV : PVal → PVal
  | .vnull => .vnull
  | .vbool b => .vbool b
  | .vnum n => .vnum n
  | .vstr s => reviveJStr s
  | .vdate d => .vdate d
  | .varr id xs => .varr id (reviveDeepL xs)
  | .vobj id fs => .vobj id (reviveDeepF fs)
def reviveDeepL : List PVal → List PVal
  | [] => []
  | x :: xs => reviveDeepV x :: reviveDeepL xs
def reviveDeepF : List (String × PVal) → List (String × PVal)
  | [] => []
  | (k, v) :: fs => (k, reviveDeepV v) :: reviveDeepF fs
end

/-! All `Date` values in a parameter tree are valid 4-digit-year dates. -/

mutual
def wfDatesV : PVal → Bool
  | .vnull => true
  | .vbool _ => true
  | .vnum _ => true
  | .vstr _ => true
  | .vdate d => validDate d
  | .varr _ xs => wfDatesL xs
  | .vobj _ fs => wfDatesF fs
def wfDatesL : List PVal → Bool
  | [] => true
  | x :: xs => wfDatesV x && wfDatesL xs
def wfDatesF : List (String × PVal) → Bool
  | [] => true
  | (_, v) :: fs => wfDatesV v && wfDatesF fs
end

/-! The replacer's `WeakSet` reference guard (get-query-key.ts:32-46): every
array/object reference is added to `seen` when first serialized and never
removed, so a second occurrence of the same reference — circular or merely
shared — aborts serialization.  `none` models the thrown error. -/

mutual
def seenV : PVal → List Nat → Option (List Nat)
  | .varr id xs, seen =>
      if id ∈ seen then none else seenL xs (id :: seen)
  | .vobj id fs, seen =>
      if id ∈ seen then none else seenF fs (id :: seen)
  | _, seen => some seen
def seenL : List PVal → List Nat → Option (List Nat)
  | [], seen => some seen
  | x :: xs, seen =>
      match seenV x seen with
      | none => none
      | some s2 => seenL xs s2
def seenF : List (String × PVal) → List Nat → Option (List Nat)
  | [], seen => some seen
  | (_, v) :: fs, seen =>
      match seenV v seen with
      | none => none
      | some s2 => seenF fs s2
end

/-- Property lookup on a parsed object's fields. -/
def lookupPF (key : String) : List (String × PVal) → Option PVal
  | [] => none
  | (k, v) :: fs => if k = key then some v else lookupPF key fs

/-- `typeof x === 'object' && x !== null`: arrays, plain objects and dates
qualify; `null` is excluded explicitly by the guard. -/
def isObjectLike : PVal → Bool
  | .vobj _ _ => true
  | .varr _ _ => true
  | .vdate _ => true
  | _ => false

/-- Lexicographic order on character lists, by code point. -/
def charListLt : List Char → List Char → Bool
  | [], [] => false
  | [], _ :: _ => true
  | _ :: _, [] => false
  | a :: as, b :: bs =>
      if a.toNat < b.toNat then true
      else if b.toNat < a.toNat then false
      else charListLt as bs

/-- `localeCompare`-based ordering modelled as a fixed total order on
strings (code-point lexicographic); the codec's round trip only relies on
sorting being a permutation. -/
def strLtB (a b : String) : Bool := charListLt a.toList b.toList

/-- Insertion into a key-sorted list. -/
def insertByKey (kv : String × PVal) : List (String × PVal) → List (String × PVal)
  | [] => [kv]
  | hd :: tl => if strLtB kv.1 hd.1 then kv :: hd :: tl else hd :: insertByKey kv tl

/-- The top-level key sort of `getQueryKey` (get-query-key.ts:50-54); only
the outermost parameter entries are sorted, nested values pass through. -/
def sortFields : List (String × PVal) → List (String × PVal)
  | [] => []
  | hd :: tl => insertByKey hd (sortFields tl)

/-- `getQueryKey` (get-query-key.ts:15-71) at the JSON-value level: reject an
empty endpoint (`TypeError`), sort the top-level parameter entries, and
serialize `{ endpoint, params }` with the reference guard; the produced JSON
value stands for the returned key string. -/
def buildKeyVal (endpoint : String) (params : List (String × PVal)) :
    Except String JVal :=
  if endpoint = "" then .error "InvalidEndpoint"
  else
    match seenF (sortFields params) [] with
    | none => .error "CircularParams"
    | some _ =>
        .ok (.jobj [("endpoint", .jstr endpoint),
                    ("params", .jobj (serializeF (sortFields params)))])

/-- `parseQueryKey` (get-query-key.ts:81-142) at the JSON-value level:
revive with the date reviver, then the structure type guard — the parsed
value must be an object with a string `endpoint` and a non-null object-typed
`params`. -/
def parseKeyVal (j : JVal) : Except String (String × PVal) :=
  match reviveV j with
  | .vobj _ fields =>
      match lookupPF "endpoint" fields, lookupPF "params" fields with
      | some (.vstr e), some pv =>
          if isObjectLike pv then .ok (e, pv) else .error "MalformedKey"
      | _, _ => .error "MalformedKey"
  | _ => .error "MalformedKey"

def pW : List (String × PVal) :=
  [("b", .vstr "2024-01-02T03:04:05.006Z"),
   ("a", .vnum 7),
   ("d", .vdate { year := 2024, month := 1, day := 2, hour := 3, minute := 4,
                  second := 5, ms := 6 }),
   ("c", .vobj 1 [("x", .vnull)])]

/-! ## Theorems -/

/-! ## Association-list lemmas -/

theorem lookupEntry_insertEntry_self (key : String) (q : QueryState)
    (l : List (String × QueryState)) :
    lookupEntry key (insertEntry key q l) = some q := by
  induction l with
  | nil => simp [insertEntry, lookupEntry]
  | cons hd tl ih =>
      obtain ⟨k, v⟩ := hd
      by_cases hk : k = key
      · simp [insertEntry, hk, lookupEntry]
      · simp [insertEntry, hk, lookupEntry, ih]

theorem length_insertEntry_of_lookup_none (key : String) (q : QueryState)
    (l : List (String × QueryState)) (h : lookupEntry key l = none) :
    (insertEntry key q l).length = l.length + 1 := by
  induction l with
  | nil => simp [insertEntry]
  | cons hd tl ih =>
      obtain ⟨k, v⟩ := hd
      by_cases hk : k = key
      · simp [lookupEntry, hk] at h
      · simp [lookupEntry, hk] at h
        simp [insertEntry, hk, ih h]

theorem length_insertEntry_of_lookup_some (key : String) (q q0 : QueryState)
    (l : List (String × QueryState)) (h : lookupEntry key l = some q0) :
    (insertEntry key q l).length = l.length := by
  induction l with
  | nil => simp [lookupEntry] at h
  | cons hd tl ih =>
      obtain ⟨k, v⟩ := hd
      by_cases hk : k = key
      · simp [insertEntry, hk]
      · simp [lookupEntry, hk] at h
        simp [insertEntry, hk, ih h]

theorem length_eraseEntry_of_lookup_some (key : String) (q0 : QueryState)
    (l : List (String × QueryState)) (h : lookupEntry key l = some q0) :
    l.length = (eraseEntry key l).length + 1 := by
  induction l with
  | nil => simp [lookupEntry] at h
  | cons hd tl ih =>
      obtain ⟨k, v⟩ := hd
      by_cases hk : k = key
      · simp [eraseEntry, hk]
      · simp [lookupEntry, hk] at h
        simp [eraseEntry, hk, ih h]

theorem lookupEntry_eq_none_of_not_mem (key : String)
    (l : List (String × QueryState)) (h : key ∉ l.map Prod.fst) :
    lookupEntry key l = none := by
  induction l with
  | nil => simp [lookupEntry]
  | cons hd tl ih =>
      obtain ⟨k, v⟩ := hd
      simp only [List.map_cons, List.mem_cons, not_or] at h
      have hk : ¬ (k = key) := fun hkk => h.1 hkk.symm
      simp [lookupEntry, hk, ih h.2]

theorem lookupEntry_eraseEntry_self (key : String)
    (l : List (String × QueryState)) (hnd : (l.map Prod.fst).Nodup) :
    lookupEntry key (eraseEntry key l) = none := by
  induction l with
  | nil => simp [eraseEntry, lookupEntry]
  | cons hd tl ih =>
      obtain ⟨k, v⟩ := hd
      simp at hnd
      by_cases hk : k = key
      · subst hk
        simp [eraseEntry]
        exact lookupEntry_eq_none_of_not_mem k tl (by simpa using hnd.1)
      · simp [eraseEntry, hk, lookupEntry, ih hnd.2]

theorem lookupEntry_filter_kept (key : String) (q : QueryState)
    (p : String × QueryState → Bool) (l : List (String × QueryState))
    (h : lookupEntry key l = some q) (hp : p (key, q) = true) :
    lookupEntry key (l.filter p) = some q := by
  induction l with
  | nil => simp [lookupEntry] at h
  | cons hd tl ih =>
      obtain ⟨k, v⟩ := hd
      by_cases hk : k = key
      · subst hk
        simp [lookupEntry] at h
        subst h
        simp [List.filter, hp, lookupEntry]
      · simp [lookupEntry, hk] at h
        cases hpv : p (k, v) <;> simp [List.filter, hpv, lookupEntry, hk, ih h]

theorem setQueryState_countInv (st : Store) (key : String)
    (upd : QueryState → UpdResult) (h : countInv st) :
    countInv (setQueryState st key upd) := by
  unfold countInv at h ⊢
  unfold setQueryState
  split
  next hl =>
    split
    next => exact h
    next q hup =>
      have hlen := length_insertEntry_of_lookup_none key q st.queries hl
      show st.queryCount + 1 = ((insertEntry key q st.queries).length : Int)
      rw [hlen]
      push_cast
      omega
  next cur hl =>
    split
    next => exact h
    next q hup =>
      split
      next => exact h
      next hs =>
        have hlen := length_insertEntry_of_lookup_some key q cur st.queries hl
        show st.queryCount = ((insertEntry key q st.queries).length : Int)
        rw [hlen]
        exact h

theorem triggerFetchSync_countInv (c : StoreConfig) (st : Store) (key : String)
    (force : Bool) (now : Int) (pid tok cid tid : Nat) (h : countInv st) :
    countInv (triggerFetchSync c st key force now pid tok cid tid).store := by
  simp only [triggerFetchSync]
  split
  next => exact h
  next =>
    split
    next =>
      dsimp only
      split
      next => exact setQueryState_countInv _ _ _ h
      next => exact h
    next => exact setQueryState_countInv _ _ _ h

theorem refetchStaleQueries_countInv (c : StoreConfig) (st : Store) (now : Int)
    (ids : String → Nat × Nat × Nat × Nat) (h : countInv st) :
    countInv (refetchStaleQueries c st now ids) := by
  unfold refetchStaleQueries
  split
  · exact h
  · generalize st.queries = l
    induction l generalizing st with
    | nil => simpa using h
    | cons hd tl ih =>
        simp only [List.foldl_cons]
        split
        · exact ih _ (triggerFetchSync_countInv _ _ _ _ _ _ _ _ _ h)
        · exact ih _ h

theorem clearQueryState_countInv (st : Store) (key : String) (h : countInv st) :
    countInv (clearQueryState st key) := by
  unfold countInv at h ⊢
  unfold clearQueryState
  split
  next => exact h
  next q hl =>
    have hlen := length_eraseEntry_of_lookup_some key q st.queries hl
    show st.queryCount - 1 = ((eraseEntry key st.queries).length : Int)
    omega

theorem clearStaleQueries_countInv (c : StoreConfig) (st : Store)
    (hasSubs : String → Bool) (sweptAt : Int) (h : countInv st) :
    countInv (clearStaleQueries c st hasSubs sweptAt) := by
  unfold countInv at h ⊢
  simp only [clearStaleQueries]
  split
  next => exact h
  next =>
    have hle := List.length_filter_le (fun kv => gcSkips c (hasSubs kv.1) kv.2 sweptAt) st.queries
    dsimp only
    omega

theorem finallyCleanup_countInv (st : Store) (key : String) (tok : Nat)
    (h : countInv st) : countInv (finallyCleanup st key tok) := by
  unfold finallyCleanup
  split
  next cur hl =>
    split
    next => exact setQueryState_countInv _ _ _ h
    next => exact h
  next => exact h

theorem applyStep_countInv (c : StoreConfig) (st : Store) (s : Step)
    (h : countInv st) : countInv (applyStep c st s) := by
  cases s with
  | trigger key force now pid tok cid tid =>
      exact triggerFetchSync_countInv c st key force now pid tok cid tid h
  | successWrite key tok d now newTimer => exact setQueryState_countInv _ _ _ h
  | errorWrite key tok e => exact setQueryState_countInv _ _ _ h
  | cycleFinally key tok => exact finallyCleanup_countInv st key tok h
  | refetchStale now ids => exact refetchStaleQueries_countInv c st now ids h
  | clearQuery key => exact clearQueryState_countInv st key h
  | clearAll => simp [applyStep, clearAllQueryStates, initialStore, countInv]
  | gcSweep hasSubs sweptAt => exact clearStaleQueries_countInv c st hasSubs sweptAt h
  | setGlobalError msg =>
      unfold countInv at h ⊢
      simpa [applyStep, setGlobalErrorState] using h

theorem runSteps_countInv (c : StoreConfig) (st : Store) (steps : List Step)
    (h : countInv st) : countInv (runSteps c st steps) := by
  induction steps generalizing st with
  | nil => exact h
  | cons hd tl ih => exact ih _ (applyStep_countInv c st hd h)

theorem setQueryState_tokenGated_id (st : Store) (key : String) (tok : Nat)
    (upd : QueryState → UpdResult)
    (hupd : ∀ s, s.inFlightToken ≠ some tok → upd s = .same)
    (hmis : tokenOf st key ≠ some tok) :
    setQueryState st key upd = st := by
  unfold setQueryState
  split
  next hl =>
    rw [hupd defaultQueryState (by simp [defaultQueryState])]
  next cur hl =>
    have hcur : cur.inFlightToken ≠ some tok := by
      intro hc
      apply hmis
      unfold tokenOf
      rw [hl]
      simpa using hc
    rw [hupd cur hcur]

theorem applyStep_completion_mismatch (c : StoreConfig) (st : Store)
    (key : String) (tok : Nat) (s : Step) (hmis : tokenOf st key ≠ some tok)
    (hs : isCycleCompletion key tok s = true) : applyStep c st s = st := by
  cases s with
  | successWrite k t d now newTimer =>
      simp only [isCycleCompletion, Bool.and_eq_true, beq_iff_eq] at hs
      obtain ⟨hk, ht⟩ := hs
      rw [hk, ht]
      show setQueryState st key (successUpdater tok d now newTimer) = st
      refine setQueryState_tokenGated_id st key tok _ ?_ hmis
      intro s hs'
      simp [successUpdater, hs']
  | errorWrite k t e =>
      simp only [isCycleCompletion, Bool.and_eq_true, beq_iff_eq] at hs
      obtain ⟨hk, ht⟩ := hs
      rw [hk, ht]
      show setQueryState st key (errorUpdater tok e) = st
      refine setQueryState_tokenGated_id st key tok _ ?_ hmis
      intro s hs'
      simp [errorUpdater, hs']
  | cycleFinally k t =>
      simp only [isCycleCompletion, Bool.and_eq_true, beq_iff_eq] at hs
      obtain ⟨hk, ht⟩ := hs
      rw [hk, ht]
      show finallyCleanup st key tok = st
      unfold finallyCleanup
      split
      next cur hl =>
        have hcur : cur.inFlightToken ≠ some tok := by
          intro hc
          apply hmis
          unfold tokenOf
          rw [hl]
          simpa using hc
        simp [hcur]
      next => rfl
  | trigger k force now pid t cid tid => simp [isCycleCompletion] at hs
  | refetchStale now ids => simp [isCycleCompletion] at hs
  | clearQuery k => simp [isCycleCompletion] at hs
  | clearAll => simp [isCycleCompletion] at hs
  | gcSweep hasSubs sweptAt => simp [isCycleCompletion] at hs
  | setGlobalError msg => simp [isCycleCompletion] at hs

theorem runSteps_completion_mismatch (c : StoreConfig) (st : Store)
    (key : String) (tok : Nat) (steps : List Step)
    (hmis : tokenOf st key ≠ some tok)
    (hsteps : ∀ s ∈ steps, isCycleCompletion key tok s = true) :
    runSteps c st steps = st := by
  induction steps with
  | nil => rfl
  | cons hd tl ih =>
      have h1 := applyStep_completion_mismatch c st key tok hd hmis
        (hsteps hd (by simp))
      show (hd :: tl).foldl (applyStep c) st = st
      rw [List.foldl_cons, h1]
      exact ih (fun s hs => hsteps s (by simp [hs]))

/-- C1 — Stale-worker immunity: if the entry's current `inFlightToken` for a
key no longer equals a fetch cycle's own token (it was superseded or
cleared), then every completion action of that cycle — its token-gated
success write, its token-gated error write, and its token-gated `.finally`
cleanup — leaves the whole store unchanged: in particular the entry's
`data`, `error` and in-flight (loading) fields set by the newer cycle are
untouched.  This is exactly the situation of cycle A finishing a retry after
cycle B for the same key completed (B's slot claim minted a fresh token). -/
theorem stale_worker_immunity (c : StoreConfig) (st : Store) (key : String)
    (tok : Nat) (steps : List Step) (hmis : tokenOf st key ≠ some tok)
    (hsteps : ∀ s ∈ steps, isCycleCompletion key tok s = true) :
    runSteps c st steps = st :=
  runSteps_completion_mismatch c st key tok steps hmis hsteps

theorem stale_worker_immunity_witness :
    runSteps cfgW stStale
      [.successWrite "k" 5 (.vstr "stale") 1000 none,
       .errorWrite "k" 5 errW, .cycleFinally "k" 5] = stStale :=
  stale_worker_immunity cfgW stStale "k" 5
    [.successWrite "k" 5 (.vstr "stale") 1000 none,
     .errorWrite "k" 5 errW, .cycleFinally "k" 5]
    (by decide) (by decide)

/-- C3 — Post-clear resurrection immunity: after `clearQueryState key`
removes the entry, the completion actions of any still-running fetch cycle
for that key (success write, error write, finally cleanup) never recreate
the entry: the map still has no binding for the key and `queryCount` is not
changed by the cycle's completion.  The success and error writes hit
`setQueryState`'s resurrection guard (the updater returns the default object
unchanged because the default carries no token), and the finally cleanup
skips a missing entry. -/
theorem post_clear_resurrection_immunity (c : StoreConfig) (st : Store)
    (key : String) (tok : Nat) (steps : List Step)
    (hnd : (st.queries.map Prod.fst).Nodup)
    (hsteps : ∀ s ∈ steps, isCycleCompletion key tok s = true) :
    (runSteps c (clearQueryState st key) steps).lookup key = none ∧
    (runSteps c (clearQueryState st key) steps).queryCount =
      (clearQueryState st key).queryCount := by
  have hnone : (clearQueryState st key).lookup key = none := by
    unfold clearQueryState
    split
    next hl => exact hl
    next q hl =>
      show lookupEntry key (eraseEntry key st.queries) = none
      exact lookupEntry_eraseEntry_self key st.queries hnd
  have hmis : tokenOf (clearQueryState st key) key ≠ some tok := by
    unfold tokenOf
    rw [hnone]
    simp
  rw [runSteps_completion_mismatch c (clearQueryState st key) key tok steps hmis hsteps]
  exact ⟨hnone, rfl⟩

theorem post_clear_resurrection_immunity_witness :
    (runSteps cfgW (clearQueryState stStale "k")
      [.successWrite "k" 7 (.vstr "late") 2000 none,
       .errorWrite "k" 7 errW, .cycleFinally "k" 7]).lookup "k" = none ∧
    (runSteps cfgW (clearQueryState stStale "k")
      [.successWrite "k" 7 (.vstr "late") 2000 none,
       .errorWrite "k" 7 errW, .cycleFinally "k" 7]).queryCount =
      (clearQueryState stStale "k").queryCount :=
  post_clear_resurrection_immunity cfgW stStale "k" 7
    [.successWrite "k" 7 (.vstr "late") 2000 none,
     .errorWrite "k" 7 errW, .cycleFinally "k" 7]
    (by decide) (by decide)

/-! ## Deduplication (claim C2) -/

theorem triggerFetchSync_dedupe (c : StoreConfig) (st : Store) (key : String)
    (now : Int) (pid tok cid tid : Nat) (q : QueryState) (p : Nat)
    (hq : st.lookup key = some q) (hp : q.inFlightPromise = some p) :
    triggerFetchSync c st key false now pid tok cid tid =
      ⟨st, .dedupe p, false, false⟩ := by
  simp [triggerFetchSync, hq, hp]

theorem triggerFetchSync_start (c : StoreConfig) (st : Store) (key : String)
    (now : Int) (pid tok cid tid : Nat)
    (h1 : (st.lookup key).bind QueryState.inFlightPromise = none)
    (h2 : cacheFresh c (st.lookup key) now = false) :
    triggerFetchSync c st key false now pid tok cid tid =
      ⟨setQueryState st key (slotClaimUpdater pid tok cid), .newFetch pid,
        true, false⟩ := by
  simp [triggerFetchSync, h1, h2]

theorem setQueryState_insert_of_none (st : Store) (key : String)
    (upd : QueryState → UpdResult) (q : QueryState)
    (hnone : st.lookup key = none) (hupd : upd defaultQueryState = .changed q) :
    (setQueryState st key upd).lookup key = some q := by
  simp only [setQueryState, hnone, hupd]
  exact lookupEntry_insertEntry_self key q st.queries

theorem triggerNAux_inflight (c : StoreConfig) (key : String) (now : Int)
    (ids : Nat → Nat × Nat × Nat × Nat) (n : Nat) (st : Store)
    (q : QueryState) (p : Nat)
    (hq : st.lookup key = some q) (hp : q.inFlightPromise = some p) :
    triggerNAux c key now ids n st = (st, 0) := by
  induction n with
  | zero => rfl
  | succ m ih =>
      simp [triggerNAux,
        triggerFetchSync_dedupe c st key now (ids m).1 (ids m).2.1
          (ids m).2.2.1 (ids m).2.2.2 q p hq hp, ih]

/-- C2 — Deduplication: (a) when an entry has an `inFlightPromise`, a
non-forced `triggerFetch` returns that exact promise, changes no state,
starts no cycle and aborts nothing; (b) consequently, starting from a store
with no entry for the key, `N ≥ 1` calls issued in one synchronous turn
start exactly one fetch cycle — the first call claims the slot (deferred
promise, fresh token, abort handle) synchronously, so every later call takes
the dedupe path. -/
theorem request_deduplication (c : StoreConfig) (st : Store) (key : String)
    (now : Int) (pid tok cid tid : Nat) (ids : Nat → Nat × Nat × Nat × Nat) :
    (∀ q p, st.lookup key = some q → q.inFlightPromise = some p →
       triggerFetchSync c st key false now pid tok cid tid =
         ⟨st, .dedupe p, false, false⟩) ∧
    (st.lookup key = none → ∀ n : Nat,
       (triggerNAux c key now ids (n + 1) st).2 = 1) := by
  constructor
  · intro q p hq hp
    exact triggerFetchSync_dedupe c st key now pid tok cid tid q p hq hp
  · intro hnone n
    have h1 : (st.lookup key).bind QueryState.inFlightPromise = none := by
      rw [hnone]; rfl
    have h2 : cacheFresh c (st.lookup key) now = false := by
      rw [hnone]; rfl
    have hclaim :
        (setQueryState st key
          (slotClaimUpdater (ids n).1 (ids n).2.1 (ids n).2.2.1)).lookup key =
          some (claimedEntry (ids n).1 (ids n).2.1 (ids n).2.2.1) :=
      setQueryState_insert_of_none st key _ _ hnone rfl
    have hchain := triggerNAux_inflight c key now ids n
      (setQueryState st key
        (slotClaimUpdater (ids n).1 (ids n).2.1 (ids n).2.2.1)) _ (ids n).1
      hclaim rfl
    simp [triggerNAux,
      triggerFetchSync_start c st key now (ids n).1 (ids n).2.1
        (ids n).2.2.1 (ids n).2.2.2 h1 h2, hchain]

theorem request_deduplication_witness :
    (triggerNAux cfgW "w" 50 idsW 3 initialStore).2 = 1 :=
  (request_deduplication cfgW initialStore "w" 50 1 2 3 4 idsW).2 rfl 2

/-! ## Cache-hit decision (claims C4 and C10) -/

theorem cacheFresh_iff (c : StoreConfig) (q : QueryState) (now : Int) :
    cacheFresh c (some q) now = true ↔
      (q.data.truthy = true ∧ q.error = none ∧
       ∃ t : Int, q.lastFetchTimestamp = some (.fin t) ∧ t ≠ 0 ∧
         0 < c.cacheTTL ∧ now - t < c.cacheTTL) := by
  cases hts : q.lastFetchTimestamp with
  | none => simp [cacheFresh, hts]
  | some ts =>
      cases ts with
      | nan => simp [cacheFresh, hts, JsNum.truthy, jsSubLt]
      | fin t =>
          simp [cacheFresh, hts, JsNum.truthy, jsSubLt,
            Option.isNone_iff_eq_none, bne_iff_ne, and_assoc]

/-- C4 — Cache-hit decision with strict TTL boundary: given the dedupe path
is not taken (no in-flight promise for the entry), a non-forced
`triggerFetch` resolves immediately from cache exactly when the entry's
`data` is present (truthy, see C10), `error` is absent, `lastFetchTimestamp`
is set (truthy), `cacheTTL > 0`, and `now - lastFetchTimestamp < cacheTTL`
with strict inequality — so at elapsed time exactly `cacheTTL` the call is
not served from cache, while at `cacheTTL - 1` it is. -/
theorem cache_hit_strict_ttl_boundary (c : StoreConfig) (st : Store)
    (key : String) (now : Int) (pid tok cid tid : Nat) (q : QueryState)
    (hq : st.lookup key = some q) (hnf : q.inFlightPromise = none) :
    (triggerFetchSync c st key false now pid tok cid tid).ret = .cacheHit ↔
      (q.data.truthy = true ∧ q.error = none ∧
       ∃ t : Int, q.lastFetchTimestamp = some (.fin t) ∧ t ≠ 0 ∧
         0 < c.cacheTTL ∧ now - t < c.cacheTTL) := by
  have h1 : (st.lookup key).bind QueryState.inFlightPromise = none := by
    simp [hq, hnf]
  by_cases hc : cacheFresh c (st.lookup key) now = true
  · have hret : (triggerFetchSync c st key false now pid tok cid tid).ret = .cacheHit := by
      simp [triggerFetchSync, h1, hc]
    rw [hret]
    have hfresh : cacheFresh c (some q) now = true := by rwa [hq] at hc
    simpa using (cacheFresh_iff c q now).mp hfresh
  · have hc' : cacheFresh c (st.lookup key) now = false := by
      simpa using hc
    have hret : (triggerFetchSync c st key false now pid tok cid tid).ret = .newFetch pid := by
      rw [triggerFetchSync_start c st key now pid tok cid tid h1 hc']
    rw [hret]
    have hnot : ¬ (q.data.truthy = true ∧ q.error = none ∧
        ∃ t : Int, q.lastFetchTimestamp = some (.fin t) ∧ t ≠ 0 ∧
          0 < c.cacheTTL ∧ now - t < c.cacheTTL) := by
      intro hr
      apply hc
      rw [hq]
      exact (cacheFresh_iff c q now).mpr hr
    simpa using hnot

theorem cache_hit_strict_ttl_boundary_witness :
    (triggerFetchSync cfgW stFresh "k" false 300099 1 2 3 4).ret = .cacheHit :=
  (cache_hit_strict_ttl_boundary cfgW stFresh "k" 300099 1 2 3 4 qFresh
    (by decide) (by decide)).mpr
    ⟨by decide, by decide, 100, by decide, by decide, by decide, by decide⟩

/-- C10 — Implicit: the cache-hit branch tests `data` for JavaScript
truthiness, not presence.  An entry holding a falsy fetched value (`0`, `""`,
`false`, `NaN`) with no error, a fresh timestamp and a positive TTL is not
served from cache: the call starts a new fetch cycle (or joins the in-flight
one when a promise exists). -/
theorem falsy_data_not_cache_hit (c : StoreConfig) (st : Store) (key : String)
    (now : Int) (pid tok cid tid : Nat) (q : QueryState)
    (hq : st.lookup key = some q) (hfalsy : q.data.truthy = false)
    (_herr : q.error = none) (_httl : 0 < c.cacheTTL)
    (_hts : ∃ t : Int, q.lastFetchTimestamp = some (.fin t) ∧ t ≠ 0 ∧
      now - t < c.cacheTTL) :
    (triggerFetchSync c st key false now pid tok cid tid).ret ≠ .cacheHit ∧
    (q.inFlightPromise = none →
      (triggerFetchSync c st key false now pid tok cid tid).ret = .newFetch pid ∧
      (triggerFetchSync c st key false now pid tok cid tid).cycleStarted = true) ∧
    (∀ p, q.inFlightPromise = some p →
      (triggerFetchSync c st key false now pid tok cid tid).ret = .dedupe p ∧
      (triggerFetchSync c st key false now pid tok cid tid).cycleStarted = false) := by
  have hc : cacheFresh c (st.lookup key) now = false := by
    rw [hq]
    unfold cacheFresh
    simp [hfalsy]
  refine ⟨?_, ?_, ?_⟩
  · cases hip : q.inFlightPromise with
    | none =>
        have h1 : (st.lookup key).bind QueryState.inFlightPromise = none := by
          simp [hq, hip]
        rw [triggerFetchSync_start c st key now pid tok cid tid h1 hc]
        simp
    | some p =>
        rw [triggerFetchSync_dedupe c st key now pid tok cid tid q p hq hip]
        simp
  · intro hip
    have h1 : (st.lookup key).bind QueryState.inFlightPromise = none := by
      simp [hq, hip]
    rw [triggerFetchSync_start c st key now pid tok cid tid h1 hc]
    exact ⟨rfl, rfl⟩
  · intro p hip
    rw [triggerFetchSync_dedupe c st key now pid tok cid tid q p hq hip]
    exact ⟨rfl, rfl⟩

theorem falsy_data_not_cache_hit_witness :
    (triggerFetchSync cfgW stZero "k" false 200 1 2 3 4).ret = .newFetch 1 :=
  ((falsy_data_not_cache_hit cfgW stZero "k" 200 1 2 3 4 qZero (by decide)
    (by decide) (by decide) (by decide)
    ⟨100, by decide, by decide, by decide⟩).2.1 (by decide)).1

/-! ## The deferred promise always resolves (claim C5) -/

/-- C5 — The promise returned by `triggerFetch` always resolves, never
rejects: whatever the outcome of the fetch cycle — success, classified error,
cancellation (all of which complete `cycleFrom` normally, which is a total
function), or an unexpected exception thrown inside the cycle's bookkeeping
(the `threw` outcome, e.g. a `parseQueryKey` failure) — the `.finally`
handler resolves the deferred unconditionally, and the deferred's reject
capability is never invoked anywhere, so the settled state is `resolvedD`.
Failure information travels only through the entry's `error` field or
`globalError`. -/
theorem trigger_promise_always_resolves (key : String) (tok : Nat)
    (oc : CycleOutcome) (s : SettleState) (h : s.deferred = .pending) :
    (settleTrigger key tok oc s).deferred = .resolvedD ∧
    (settleTrigger key tok oc s).deferred ≠ .rejectedD := by
  cases oc <;> simp [settleTrigger, finallyBody, resolveDefer, h]

theorem trigger_promise_always_resolves_witness :
    (settleTrigger "k" 1 (.threw "malformed key")
      ⟨initialStore, .pending, false⟩).deferred = .resolvedD :=
  (trigger_promise_always_resolves "k" 1 (.threw "malformed key")
    ⟨initialStore, .pending, false⟩ rfl).1

/-! ## GC safety (claim C7) -/

theorem gcIsStale_true_iff (c : StoreConfig) (q : QueryState) (sweptAt : Int) :
    gcIsStale c q sweptAt = true ↔
      ∃ t : Int, q.lastFetchTimestamp = some (.fin t) ∧ t ≠ 0 ∧
        sweptAt - t > c.gcGracePeriod := by
  cases hts : q.lastFetchTimestamp with
  | none => simp [gcIsStale, hts]
  | some ts =>
      cases ts with
      | nan => simp [gcIsStale, hts, JsNum.truthy]
      | fin t => simp [gcIsStale, hts, JsNum.truthy, jsSubGt, bne_iff_ne]

/-- C7 — GC safety: `clearStaleQueries` never evicts an entry that has an
active subscriber (per the external liveness tracker), or an in-flight
promise, or an active poll timer, nor an entry whose `lastFetchTimestamp` is
absent or `NaN` — such entries survive the sweep unchanged.  Conversely, an
entry is removed only when it fails all three activity conditions and has a
defined, truthy timestamp strictly older than `gcGracePeriod`. -/
theorem gc_never_evicts_active (c : StoreConfig) (hasSubs : String → Bool)
    (sweptAt : Int) (st : Store) (key : String) (q : QueryState)
    (hq : st.lookup key = some q) :
    ((hasSubs key = true ∨ q.inFlightPromise.isSome = true ∨
      q.refetchTimerId.isSome = true ∨ q.lastFetchTimestamp = none ∨
      q.lastFetchTimestamp = some .nan) →
      (clearStaleQueries c st hasSubs sweptAt).lookup key = some q) ∧
    ((clearStaleQueries c st hasSubs sweptAt).lookup key = none →
      hasSubs key = false ∧ q.inFlightPromise = none ∧ q.refetchTimerId = none ∧
      ∃ t : Int, q.lastFetchTimestamp = some (.fin t) ∧ t ≠ 0 ∧
        sweptAt - t > c.gcGracePeriod) := by
  have hkept : gcSkips c (hasSubs key) q sweptAt = true →
      (clearStaleQueries c st hasSubs sweptAt).lookup key = some q := by
    intro hskip
    simp only [clearStaleQueries]
    split
    next => exact hq
    next => exact lookupEntry_filter_kept key q _ st.queries hq hskip
  constructor
  · intro hact
    apply hkept
    unfold gcSkips gcIsStale
    rcases hact with h | h | h | h | h
    · simp [h]
    · simp [h]
    · simp [h]
    · simp [h]
    · simp [h, JsNum.truthy]
  · intro hnone
    have hskip : gcSkips c (hasSubs key) q sweptAt = false := by
      cases hgc : gcSkips c (hasSubs key) q sweptAt with
      | false => rfl
      | true => rw [hkept hgc] at hnone; simp at hnone
    have hskip2 : hasSubs key = false ∧ q.inFlightPromise.isSome = false ∧
        q.refetchTimerId.isSome = false ∧ gcIsStale c q sweptAt = true := by
      revert hskip
      unfold gcSkips
      cases hasSubs key <;> cases q.inFlightPromise.isSome <;>
        cases q.refetchTimerId.isSome <;> cases gcIsStale c q sweptAt <;> simp
    obtain ⟨hsub, hinf, htim, hstale2⟩ := hskip2
    refine ⟨hsub, ?_, ?_, ?_⟩
    · cases hip : q.inFlightPromise with
      | none => rfl
      | some p => rw [hip] at hinf; simp at hinf
    · cases hit : q.refetchTimerId with
      | none => rfl
      | some tid => rw [hit] at htim; simp at htim
    · exact (gcIsStale_true_iff c q sweptAt).mp hstale2

theorem gc_never_evicts_active_witness :
    (clearStaleQueries cfgW stGc (fun _ => false) 999999999).lookup "g" =
      some qStaleOld :=
  (gc_never_evicts_active cfgW (fun _ => false) 999999999 stGc "g" qStaleOld
    (by decide)).1 (Or.inr (Or.inl (by decide)))

/-! ## Retry delay computation (claim C8) -/

/-- C8 — Retry delay: after a non-abort, retryable failure on attempt `n`
with `n` below the attempt limit, the cycle writes the error and then waits
`retryAfter` when the classified error carries one, else
`retryDelay * 2 ^ (n - 1)`; if cancellation fires during the wait, the cycle
ends there — no attempt `n + 1` ever runs. -/
theorem retry_delay_computation (c : StoreConfig) (env : CycleEnv) (n : Nat)
    (e : ApiError) (hn : n < c.retryAttempts)
    (hab : env.abortedBefore n = false)
    (hres : env.attemptResult n = .error e)
    (hnab : e.isAbort = false) (hr : e.retryable = true) :
    cycleFrom c env n (c.retryAttempts - n + 1) =
      .attemptRun n :: .errorWritten n e ::
      .waited n (e.retryAfter.getD (c.retryDelay * 2 ^ (n - 1))) ::
      (if env.abortedDuringWait n then []
       else cycleFrom c env (n + 1) (c.retryAttempts - n)) ∧
    (env.abortedDuringWait n = true →
      cycleFrom c env n (c.retryAttempts - n + 1) =
        [.attemptRun n, .errorWritten n e,
         .waited n (e.retryAfter.getD (c.retryDelay * 2 ^ (n - 1)))]) := by
  obtain ⟨k, hk⟩ : ∃ k, c.retryAttempts - n = k + 1 :=
    ⟨c.retryAttempts - n - 1, by omega⟩
  constructor
  · rw [hk]
    simp [cycleFrom, hab, hres, hnab, hr, computeRetryDelay]
  · intro hw
    rw [hk]
    simp [cycleFrom, hab, hres, hnab, hr, hw, computeRetryDelay]

theorem retry_delay_computation_witness :
    cycleFrom cfgW envW 1 3 =
      [.attemptRun 1, .errorWritten 1 errRetry, .waited 1 500] :=
  (retry_delay_computation cfgW envW 1 errRetry (by decide) rfl rfl rfl rfl).2 rfl

/-! ## Store-count invariant (claim C6) -/

/-- C6 — Store-count invariant: in every state reachable from the initial
store by any sequence of the store's atomic operations (`triggerFetch`'s
synchronous phase, cycle success/error writes, finally cleanup,
`refetchStaleQueries`, `clearQueryState`, `clearAllQueryStates`,
`clearStaleQueries`, `setGlobalErrorState`), `queryCount` equals the number
of entries in the query map; each operation updates both in the same atomic
`set`, so no step of any sequence can produce a state where they disagree. -/
theorem store_count_invariant (c : StoreConfig) (steps : List Step) :
    (runSteps c initialStore steps).queryCount =
      ((runSteps c initialStore steps).queries.length : Int) :=
  runSteps_countInv c initialStore steps rfl

/-! ## Digit and ISO-format lemmas -/

theorem digitChar_spec : ∀ d < 10,
    isDigitChar (digitChar d) = true ∧ digitVal (digitChar d) = d := by decide

theorem takeDigits_padChars (k : Nat) : ∀ (acc n : Nat) (rest : List Char),
    n < 10 ^ k →
    takeDigits k acc (padChars k n ++ rest) = some (acc * 10 ^ k + n, rest) := by
  induction k with
  | zero =>
      intro acc n rest hn
      interval_cases n
      simp [padChars, takeDigits]
  | succ k ih =>
      intro acc n rest hn
      have hdlt : n / 10 ^ k < 10 := by
        rw [Nat.div_lt_iff_lt_mul (Nat.pos_pow_of_pos k (by norm_num))]
        calc n < 10 ^ (k + 1) := hn
          _ = 10 * 10 ^ k := by ring
      obtain ⟨hdig, hval⟩ := digitChar_spec (n / 10 ^ k) hdlt
      have hmod : n % 10 ^ k < 10 ^ k :=
        Nat.mod_lt n (Nat.pos_pow_of_pos k (by norm_num))
      simp only [padChars, List.cons_append, takeDigits, hdig, if_true, hval]
      have h2 := Nat.div_add_mod n (10 ^ k)
      have h3 : (acc * 10 + n / 10 ^ k) * 10 ^ k + n % 10 ^ k =
          acc * 10 ^ (k + 1) + n := by
        calc (acc * 10 + n / 10 ^ k) * 10 ^ k + n % 10 ^ k
            = acc * 10 ^ (k + 1) + (10 ^ k * (n / 10 ^ k) + n % 10 ^ k) := by ring
          _ = acc * 10 ^ (k + 1) + n := by rw [h2]
      have hrec := ih (acc * 10 + n / 10 ^ k) (n % 10 ^ k) rest hmod
      rw [h3] at hrec
      exact hrec

theorem takeDigitsGreedy_padChars (k : Nat) : ∀ (acc cnt n : Nat) (rest : List Char),
    n < 10 ^ k →
    takeDigitsGreedy k acc cnt (padChars k n ++ rest) =
      (acc * 10 ^ k + n, cnt + k, rest) := by
  induction k with
  | zero =>
      intro acc cnt n rest hn
      interval_cases n
      simp [padChars, takeDigitsGreedy]
  | succ k ih =>
      intro acc cnt n rest hn
      have hdlt : n / 10 ^ k < 10 := by
        rw [Nat.div_lt_iff_lt_mul (Nat.pos_pow_of_pos k (by norm_num))]
        calc n < 10 ^ (k + 1) := hn
          _ = 10 * 10 ^ k := by ring
      obtain ⟨hdig, hval⟩ := digitChar_spec (n / 10 ^ k) hdlt
      have hmod : n % 10 ^ k < 10 ^ k :=
        Nat.mod_lt n (Nat.pos_pow_of_pos k (by norm_num))
      simp only [padChars, List.cons_append, takeDigitsGreedy, hdig, if_true, hval]
      have h2 := Nat.div_add_mod n (10 ^ k)
      have h3 : (acc * 10 + n / 10 ^ k) * 10 ^ k + n % 10 ^ k =
          acc * 10 ^ (k + 1) + n := by
        calc (acc * 10 + n / 10 ^ k) * 10 ^ k + n % 10 ^ k
            = acc * 10 ^ (k + 1) + (10 ^ k * (n / 10 ^ k) + n % 10 ^ k) := by ring
          _ = acc * 10 ^ (k + 1) + n := by rw [h2]
      have h4 : cnt + 1 + k = cnt + (k + 1) := by omega
      have hrec := ih (acc * 10 + n / 10 ^ k) (cnt + 1) (n % 10 ^ k) rest hmod
      rw [h3, h4] at hrec
      exact hrec

/-- Bounds packaged out of `validDate`. -/
theorem validDate_bounds (d : DateC) (hd : validDate d = true) :
    d.year < 10 ^ 4 ∧ d.month < 10 ^ 2 ∧ d.day < 10 ^ 2 ∧ d.hour < 10 ^ 2 ∧
    d.minute < 10 ^ 2 ∧ d.second < 10 ^ 2 ∧ d.ms < 10 ^ 3 ∧
    1 ≤ d.month ∧ d.month ≤ 12 ∧ 1 ≤ d.day ∧ d.day ≤ daysInMonth d.year d.month ∧
    d.hour ≤ 23 ∧ d.minute ≤ 59 ∧ d.second ≤ 59 := by
  simp only [validDate, Bool.and_eq_true, decide_eq_true_eq] at hd
  obtain ⟨⟨⟨⟨⟨⟨⟨⟨h1, h2⟩, h3⟩, h4⟩, h5⟩, h6⟩, h7⟩, h8⟩, h9⟩ := hd
  have hdm : daysInMonth d.year d.month ≤ 31 := by
    unfold daysInMonth
    split
    · split <;> omega
    · split <;> omega
  refine ⟨by omega, by omega, by omega, by omega, by omega, by omega, by omega,
    h2, h3, h4, h5, h6, h7, h8⟩

theorem expectChar_cons_self (c : Char) (rest : List Char) :
    expectChar c (c :: rest) = some rest := by
  simp [expectChar]

theorem parseDatePart_pad (y mo dy : Nat) (rest : List Char)
    (hy : y < 10 ^ 4) (hmo : mo < 10 ^ 2) (hdy : dy < 10 ^ 2) :
    parseDatePart
      (padChars 4 y ++ ('-' :: (padChars 2 mo ++ ('-' :: (padChars 2 dy ++ rest))))) =
      some (y, mo, dy, rest) := by
  unfold parseDatePart
  simp only [takeDigits_padChars 4 0 y _ hy, takeDigits_padChars 2 0 mo _ hmo,
    takeDigits_padChars 2 0 dy _ hdy, Option.bind_eq_bind, Option.some_bind,
    zero_mul, Nat.zero_add, expectChar_cons_self]

theorem parseTimePart_pad (h mi se : Nat) (rest : List Char)
    (hh : h < 10 ^ 2) (hmi : mi < 10 ^ 2) (hse : se < 10 ^ 2) :
    parseTimePart
      ('T' :: (padChars 2 h ++ (':' :: (padChars 2 mi ++ (':' :: (padChars 2 se ++ rest)))))) =
      some (h, mi, se, rest) := by
  unfold parseTimePart
  simp only [takeDigits_padChars 2 0 h _ hh, takeDigits_padChars 2 0 mi _ hmi,
    takeDigits_padChars 2 0 se _ hse, Option.bind_eq_bind, Option.some_bind,
    zero_mul, Nat.zero_add, expectChar_cons_self]

theorem parseFracPart_pad (ms : Nat) (rest : List Char) (hms : ms < 10 ^ 3) :
    parseFracPart ('.' :: (padChars 3 ms ++ rest)) = some (some (ms, 3), rest) := by
  unfold parseFracPart
  simp only [takeDigitsGreedy_padChars 3 0 0 ms _ hms, zero_mul, Nat.zero_add]
  simp

/-- The serialized ISO string of a valid date matches the reviver's regex
with exactly the expected raw fields. -/
theorem parseIsoShape_isoChars (d : DateC) (hd : validDate d = true) :
    parseIsoShape (isoChars d) =
      some { year := d.year, month := d.month, day := d.day, hour := d.hour,
             minute := d.minute, second := d.second, frac := some (d.ms, 3),
             tz := .z } := by
  obtain ⟨hy, hmo, hdy, hh, hmi, hse, hms, _⟩ := validDate_bounds d hd
  unfold parseIsoShape isoChars
  simp only [parseDatePart_pad d.year d.month d.day _ hy hmo hdy,
    Option.bind_eq_bind, Option.some_bind]
  simp only [parseTimePart_pad d.hour d.minute d.second _ hh hmi hse,
    Option.some_bind]
  simp only [parseFracPart_pad d.ms _ hms, Option.some_bind]
  rfl

/-- `new Date` recovers a valid date from its own raw ISO fields. -/
theorem rawToDate_iso (d : DateC) (hd : validDate d = true) :
    rawToDate { year := d.year, month := d.month, day := d.day, hour := d.hour,
                minute := d.minute, second := d.second, frac := some (d.ms, 3),
                tz := .z } = some d := by
  obtain ⟨_, _, _, _, _, _, _, hmo1, hmo2, hdy1, hdy2, hh, hmi, hse⟩ :=
    validDate_bounds d hd
  unfold rawToDate
  have hms3 : d.ms * 10 ^ (3 - 3) = d.ms := by norm_num
  simp only [hms3]
  rw [if_neg (by simp [hmo1, hmo2]), if_neg (by simp [hdy1, hdy2]),
    if_neg (by simp [hmi, hse]), if_neg (by omega), if_pos hh]
  simp [applyTz]

/-- The reviver turns the `toISOString` form of a valid date back into that
very date. -/
theorem reviveJStr_toISO (d : DateC) (hd : validDate d = true) :
    reviveJStr (toISOString d) = .vdate d := by
  have hlist : (toISOString d).toList = isoChars d := rfl
  simp only [reviveJStr, hlist, parseIsoShape_isoChars d hd, rawToDate_iso d hd]

/-- Strings never revive into arrays or objects, so forgetting ids is the
identity on a revived string. -/
theorem stripIds_reviveJStr (s : String) :
    stripIdsV (reviveJStr s) = reviveJStr s := by
  unfold reviveJStr
  rcases h : parseIsoShape s.toList with _ | raw
  · rfl
  · rcases h2 : rawToDate raw with _ | d
    · simp [h2, stripIdsV]
    · simp [h2, stripIdsV]

/-! Serializing and re-parsing a parameter value equals the claim's
"revival" of that value, up to object identities. -/

mutual
theorem revSerV : ∀ (v : PVal), wfDatesV v = true →
    reviveV (serializeV v) = stripIdsV (reviveDeepV v)
  | .vnull, _ => rfl
  | .vbool _, _ => rfl
  | .vnum _, _ => rfl
  | .vstr s, _ => by
      show reviveJStr s = stripIdsV (reviveJStr s)
      exact (stripIds_reviveJStr s).symm
  | .vdate d, h => by
      have hd : validDate d = true := by simpa [wfDatesV] using h
      show reviveJStr (toISOString d) = .vdate d
      exact reviveJStr_toISO d hd
  | .varr id xs, h => by
      have h2 : wfDatesL xs = true := by simpa [wfDatesV] using h
      show PVal.varr 0 (reviveL (serializeL xs)) = .varr 0 (stripIdsL (reviveDeepL xs))
      rw [revSerL xs h2]
  | .vobj id fs, h => by
      have h2 : wfDatesF fs = true := by simpa [wfDatesV] using h
      show PVal.vobj 0 (reviveF (serializeF fs)) = .vobj 0 (stripIdsF (reviveDeepF fs))
      rw [revSerF fs h2]
theorem revSerL : ∀ (xs : List PVal), wfDatesL xs = true →
    reviveL (serializeL xs) = stripIdsL (reviveDeepL xs)
  | [], _ => rfl
  | x :: xs, h => by
      have h2 : wfDatesV x = true ∧ wfDatesL xs = true := by
        simpa [wfDatesL, Bool.and_eq_true] using h
      show reviveV (serializeV x) :: reviveL (serializeL xs) =
        stripIdsV (reviveDeepV x) :: stripIdsL (reviveDeepL xs)
      rw [revSerV x h2.1, revSerL xs h2.2]
theorem revSerF : ∀ (fs : List (String × PVal)), wfDatesF fs = true →
    reviveF (serializeF fs) = stripIdsF (reviveDeepF fs)
  | [], _ => rfl
  | (k, v) :: fs, h => by
      have h2 : wfDatesV v = true ∧ wfDatesF fs = true := by
        simpa [wfDatesF, Bool.and_eq_true] using h
      show (k, reviveV (serializeV v)) :: reviveF (serializeF fs) =
        (k, stripIdsV (reviveDeepV v)) :: stripIdsF (reviveDeepF fs)
      rw [revSerV v h2.1, revSerF fs h2.2]
end

theorem stripIds_reviveDeep_map (fs : List (String × PVal)) :
    stripIdsF (reviveDeepF fs) =
      fs.map (fun kv => (kv.1, stripIdsV (reviveDeepV kv.2))) := by
  induction fs with
  | nil => rfl
  | cons hd tl ih =>
      obtain ⟨k, v⟩ := hd
      show (k, stripIdsV (reviveDeepV v)) :: stripIdsF (reviveDeepF tl) = _
      rw [ih]
      rfl

theorem insertByKey_perm (kv : String × PVal) (l : List (String × PVal)) :
    (insertByKey kv l).Perm (kv :: l) := by
  induction l with
  | nil => exact List.Perm.refl _
  | cons hd tl ih =>
      show (if strLtB kv.1 hd.1 then kv :: hd :: tl else hd :: insertByKey kv tl).Perm _
      split
      · exact List.Perm.refl _
      · exact (ih.cons hd).trans (List.Perm.swap kv hd tl)

theorem sortFields_perm (l : List (String × PVal)) : (sortFields l).Perm l := by
  induction l with
  | nil => exact List.Perm.refl _
  | cons hd tl ih =>
      show (insertByKey hd (sortFields tl)).Perm (hd :: tl)
      exact (insertByKey_perm hd (sortFields tl)).trans (ih.cons hd)

theorem wfDatesF_all (l : List (String × PVal)) :
    wfDatesF l = true ↔ ∀ kv ∈ l, wfDatesV kv.2 = true := by
  induction l with
  | nil => simp [wfDatesF]
  | cons hd tl ih =>
      obtain ⟨k, v⟩ := hd
      simp [wfDatesF, Bool.and_eq_true, ih]

/-- Parsing the exact JSON value `getQueryKey` produces: the structure guard
passes whenever the endpoint string is not itself revived into a date. -/
theorem parseKeyVal_build (E : String) (S : List (String × JVal))
    (hEstr : reviveJStr E = .vstr E) :
    parseKeyVal (.jobj [("endpoint", .jstr E), ("params", .jobj S)]) =
      .ok (E, .vobj 0 (reviveF S)) := by
  have hne : ¬ (("endpoint" : String) = "params") := by decide
  show (match PVal.vobj 0 [("endpoint", reviveJStr E), ("params", .vobj 0 (reviveF S))] with
        | .vobj _ fields =>
            match lookupPF "endpoint" fields, lookupPF "params" fields with
            | some (.vstr e), some pv =>
                if isObjectLike pv then Except.ok (e, pv) else .error "MalformedKey"
            | _, _ => .error "MalformedKey"
        | _ => .error "MalformedKey") = .ok (E, .vobj 0 (reviveF S))
  rw [hEstr]
  simp [lookupPF, hne, isObjectLike]

/-- C9 (amended) — Key-codec round trip: for every non-empty endpoint `E`
that the reviver does not itself turn into a date, and every parameter map
whose object values are reference-distinct (the serializer's guard, which
also rejects shared non-circular references, passes) and whose dates are
valid 4-digit-year dates, `parseKey (buildKey E P)` succeeds, returns an
endpoint equal to `E`, and returns a params map deep-equal to `P` modulo
revival (`reviveDeepF`: dates come back as the same dates, ISO-format
strings become dates), modulo object identities (`stripIdsF`) and modulo
the top-level reordering introduced by key sorting (a permutation). -/
theorem key_codec_round_trip (E : String) (P : List (String × PVal))
    (hE : ¬ (E = "")) (hEstr : reviveJStr E = .vstr E)
    (hG : (seenF (sortFields P) []).isSome = true)
    (hdates : wfDatesF P = true) :
    ∃ outFields,
      (buildKeyVal E P).bind parseKeyVal = .ok (E, .vobj 0 outFields) ∧
      outFields.Perm (stripIdsF (reviveDeepF P)) := by
  obtain ⟨s2, hs2⟩ := Option.isSome_iff_exists.mp hG
  refine ⟨reviveF (serializeF (sortFields P)), ?_, ?_⟩
  · unfold buildKeyVal
    rw [if_neg hE, hs2]
    show parseKeyVal (.jobj [("endpoint", .jstr E),
      ("params", .jobj (serializeF (sortFields P)))]) = _
    exact parseKeyVal_build E _ hEstr
  · have hwf : wfDatesF (sortFields P) = true := by
      rw [wfDatesF_all]
      intro kv hkv
      exact (wfDatesF_all P).mp hdates kv ((sortFields_perm P).mem_iff.mp hkv)
    rw [revSerF _ hwf, stripIds_reviveDeep_map, stripIds_reviveDeep_map]
    exact (sortFields_perm P).map _

/-- C9, counterexample to the claim as stated: the endpoint
`"2024-01-02T03:04:05.006Z"` is a non-empty string and the empty parameter
map has no circular reference, yet `parseKey (buildKey E {})` fails — the
reviver turns the endpoint value itself into a `Date`, so the structure
guard (`typeof endpoint === 'string'`) rejects the parsed key. -/
theorem key_codec_iso_endpoint_cex :
    (buildKeyVal "2024-01-02T03:04:05.006Z" []).bind parseKeyVal =
      .error "MalformedKey" := by rfl

theorem key_codec_round_trip_witness :
    ∃ outFields,
      (buildKeyVal "users" pW).bind parseKeyVal = .ok ("users", .vobj 0 outFields) ∧
      outFields.Perm (stripIdsF (reviveDeepF pW)) :=
  key_codec_round_trip "users" pW (by decide) (by rfl) (by rfl) (by rfl)
